import Mathlib

/-!
Verification development for the interactive yt-dlp front end
`yt_cli_downloader.py`.

The Python source is shallowly embedded below.  Pure string manipulation
(`str.split`, `str.strip`, `str.zfill`, `str.replace`, `str.lower`,
substring tests) is re-implemented on `List Char` so that every definition
is executable and kernel-reducible; the per-item download driver (the
`for entry in entries` loop of `main`) is embedded as a function from an
*oracle* describing the outcomes of the external calls (yt-dlp download
invocations and ffmpeg subprocess calls) to the report and the ordered
trace of effectful actions that the code performs.  The output directory
is modelled as an association list from file name to file size, which is
all the code ever inspects (`exists()` and `stat().st_size`).
-/

namespace YtDl

set_option autoImplicit false

/-! ## Python string primitives -/

/-- `beginsAt needle hay`: the char list `needle` occurs at the front of `hay`. -/
def beginsAt : List Char → List Char → Bool
  | [], _ => true
  | _ :: _, [] => false
  | a :: as, b :: bs => a == b && beginsAt as bs

/-- `hasSub needle hay`: some position of `hay` starts with `needle`
(Python `needle in hay` for strings). -/
def hasSub (needle : List Char) : List Char → Bool
  | [] => needle.isEmpty
  | b :: bs => beginsAt needle (b :: bs) || hasSub needle bs

/-- Python `needle in hay` on strings. -/
def strContains (hay needle : String) : Bool :=
  hasSub needle.data hay.data

/-- Python `str.lower` (ASCII, which covers every signature the code tests). -/
def lowerStr (s : String) : String :=
  ⟨s.data.map Char.toLower⟩

/-- Python `str.split(sep)` for a single-character separator, on char lists. -/
def splitOnChar (c : Char) : List Char → List (List Char)
  | [] => [[]]
  | d :: ds =>
    if d == c then [] :: splitOnChar c ds
    else
      match splitOnChar c ds with
      | [] => [[d]]
      | g :: gs => (d :: g) :: gs

/-- Python `s.replace(":", "")`: drop every colon. -/
def stripColons (s : String) : String :=
  ⟨s.data.filter (fun c => !(c == ':'))⟩

/-- Python whitespace test used by `str.strip`. -/
def isPySpace (c : Char) : Bool :=
  c == ' ' || c == '\t' || c == '\n' || c == '\r' || c == '\x0b' || c == '\x0c'

/-- Python `str.strip()`. -/
def stripStr (s : String) : String :=
  ⟨((s.data.dropWhile isPySpace).reverse.dropWhile isPySpace).reverse⟩

/-- Python `str.isdigit()` (ASCII digits; nonempty). -/
def isdigitStr (s : String) : Bool :=
  !s.data.isEmpty && s.data.all Char.isDigit

/-- Numeric value of a digit string (Python `int` on an `isdigit` string). -/
def digitsToNat (l : List Char) : Nat :=
  l.foldl (fun a c => a * 10 + (c.toNat - 48)) 0

/-- Python `str.zfill(w)`: left-pad with zeros to width `w`, keeping a
leading sign character in front of the padding. -/
def zfill (s : String) (w : Nat) : String :=
  if w ≤ s.data.length then s
  else
    match s.data with
    | [] => ⟨List.replicate w '0'⟩
    | c :: rest =>
      if c == '+' || c == '-' then
        ⟨c :: (List.replicate (w - (c :: rest).length) '0' ++ rest)⟩
      else
        ⟨List.replicate (w - (c :: rest).length) '0' ++ (c :: rest)⟩

/-! ## Timestamp normalization and naming (main, lines 132-157 and 199-205)

`start = input(...)`, then `if len(start.split(":")) == 2: start = "00:" + start`,
and the quality tag is extended with
`f"_{start.replace(':', '').zfill(6)}-{end.replace(':', '').zfill(6)}"`. -/

/-- Two-field `MM:SS` timestamps get `00:` prefixed; anything else is untouched. -/
def normalizeTs (t : String) : String :=
  if (splitOnChar ':' t.data).length = 2 then "00:" ++ t else t

/-- The trim half-tag of one timestamp: colons stripped, zero-padded to 6. -/
def trimDigits (t : String) : String :=
  zfill (stripColons t) 6

/-- A fully resolved session request (the data `main` has gathered by line 157).
`audio_fmt` is only meaningful when `is_audio`, `res` only when not.
`section?` holds the raw start/end strings entered when the user chose
"Specific time range". -/
structure Request where
  is_audio : Bool
  audio_fmt : String
  res : String
  section? : Option (String × String)
deriving DecidableEq, Repr

/-- The normalized `start`/`end` variables after lines 140-143 / 153-156. -/
def startEnd (req : Request) : Option String × Option String :=
  match req.section? with
  | none => (none, none)
  | some (s, e) => (some (normalizeTs s), some (normalizeTs e))

/-- Python truthiness of the `start`/`end` variables (`None` and `""` are falsy). -/
def truthy : Option String → Bool
  | none => false
  | some s => !(s == "")

/-- `try_fragment_cut = bool(start and end)` (line 182). -/
def tryFragmentCut (req : Request) : Bool :=
  truthy (startEnd req).1 && truthy (startEnd req).2

/-- `quality_tag_base` after lines 132-157: the audio format or resolution,
with `_<start digits>-<end digits>` appended when a section was requested. -/
def quality_tag_base (req : Request) : String :=
  let b := if req.is_audio then req.audio_fmt else req.res
  match req.section? with
  | none => b
  | some (s, e) =>
    b ++ "_" ++ trimDigits (normalizeTs s) ++ "-" ++ trimDigits (normalizeTs e)

/-- `base_name = f"{title}_{quality_tag_base}"` (line 204); `title` is the
already-sanitized title (sanitization itself is delegated to
yt-dlp's `sanitize_filename`, an external collaborator). -/
def base_name (title : String) (req : Request) : String :=
  title ++ "_" ++ quality_tag_base req

/-- `outtmpl = str(out_dir / f"{base_name}.%(ext)s")` (line 205): the
planned output template of an item.  Note that it is built directly from
`base_name`, without consulting the existing contents of `out_dir`. -/
def outtmpl_of (out_dir bn : String) : String :=
  out_dir ++ "/" ++ bn ++ ".%(ext)s"

/-! ## `unique_template` (lines 89-98)

A helper that scans `base.ext`, `base (1).ext`, `base (2).ext`, ... against
the existing directory listing and returns the first free candidate as an
output template.  The `while True` loop is embedded with explicit fuel;
`existing.length + 1` candidates always suffice because each probe that
stays in the loop consumes a distinct member of `existing`. -/

/-- `f"{base}{suffix}.{ext}"` for the `n`-th candidate
(`suffix` is `""` for `n = 0` and `" (n)"` afterwards). -/
def candidateName (base ext : String) (n : Nat) : String :=
  (if n = 0 then base else base ++ " (" ++ toString n ++ ")") ++ "." ++ ext

/-- The collision-scan loop: smallest `n ≥ start` (within `fuel` probes)
whose candidate is not in `existing`. -/
def uniqueLoop (existing : List String) (base ext : String) : Nat → Nat → Nat
  | 0, n => n
  | fuel + 1, n =>
    if existing.contains (candidateName base ext n) then
      uniqueLoop existing base ext fuel (n + 1)
    else n

/-- `unique_template(directory, base, ext)`, with the directory contents
given as the list of file names that `exist()` in it. -/
def unique_template (dir : String) (existing : List String) (base ext : String) : String :=
  let n := uniqueLoop existing base ext (existing.length + 1) 0
  dir ++ "/" ++ (if n = 0 then base else base ++ " (" ++ toString n ++ ")") ++ ".%(ext)s"

/-! ## Playlist subset selection (lines 124-125 and 180) -/

/-- Python `raw.split(",")` as a list of strings. -/
def splitCommas (raw : String) : List String :=
  (splitOnChar ',' raw.data).map (fun l => ⟨l⟩)

/-- Lines 124-125:
`[int(x.strip()) - 1 for x in raw.split(",") if x.strip().isdigit()]`
then `[i for i in selected_indices if 0 <= i < len(entries)]`. -/
def selected_indices (raw : String) (numEntries : Nat) : List Int :=
  let first := (splitCommas raw).filterMap (fun x =>
    let t := stripStr x
    if isdigitStr t then some ((digitsToNat t.data : Int) - 1) else none)
  first.filter (fun i => 0 ≤ i && i < (numEntries : Int))

/-- Line 180:
`[e for i, e in enumerate(all_entries) if download_all or i in selected_indices]`. -/
def selectEntries {α : Type} (all_entries : List α) (download_all : Bool)
    (sel : List Int) : List α :=
  ((all_entries.enum).filter
    (fun p => download_all || sel.contains ((p.1 : Nat) : Int))).map Prod.snd

/-! ## yt-dlp option dictionaries (lines 185-244 and 316-321)

Only the fields that vary between invocations are modelled; the constant
entries of `ydl_opts_base` (ffmpeg location, quiet flag, user agent, retry
counts and sleep intervals) are identical in every invocation and carry no
claim-relevant information.  The fields `download_ranges` and
`force_keyframes_at_cuts` are yt-dlp's native section-download directives;
no options dict built anywhere in the source contains these keys, which the
embedding records by the fields never being set away from their defaults. -/

/-- One entry of a `postprocessors` list.  Field names follow the source
dict keys, including the source's spelling `preferedformat`. -/
structure Postprocessor where
  key : String
  preferredcodec : Option String := none
  preferredquality : Option String := none
  preferedformat : Option String := none
deriving DecidableEq, Repr

/-- The varying part of an options dict passed to `yt_dlp.YoutubeDL`. -/
structure YdlOpts where
  outtmpl : String
  format : String
  merge_output_format : Option String := none
  postprocessors : List Postprocessor := []
  postprocessor_args : Option (List String) := none
  download_ranges : Option (String × String) := none
  force_keyframes_at_cuts : Bool := false
deriving DecidableEq, Repr

/-- `res_to_height.get(res, 1080)` (line 226-228). -/
def res_to_height : String → Nat
  | "1080p" => 1080
  | "720p" => 720
  | "480p" => 480
  | "360p" => 360
  | _ => 1080

/-- The video format selector chain (lines 227-237). -/
def videoFmt (res : String) : String :=
  if res ≠ "auto" then
    let h := toString (res_to_height res)
    "bv*[height=" ++ h ++ "][vcodec~=\x27(avc1|h264)\x27]+ba[ext=m4a]/" ++
    "bv*[height=" ++ h ++ "]+ba/" ++
    "bv*[height<=" ++ h ++ "][vcodec~=\x27(avc1|h264)\x27]+ba/" ++
    "bv*[height<=" ++ h ++ "]+ba/" ++
    "b[height<=" ++ h ++ "]"
  else "bv*+ba/b"

/-- The primary options dict (`ydl_opts`, lines 207-244). -/
def primaryOpts (req : Request) (tmpl : String) : YdlOpts :=
  if req.is_audio then
    { outtmpl := tmpl
      format := "bestaudio/best"
      postprocessors := [{ key := "FFmpegExtractAudio"
                           preferredcodec := some req.audio_fmt
                           preferredquality := some "192" }]
      postprocessor_args :=
        if tryFragmentCut req then
          some ["-ss", ((startEnd req).1).getD "", "-to", ((startEnd req).2).getD ""]
        else none }
  else
    { outtmpl := tmpl
      format := videoFmt req.res
      merge_output_format := some "mp4"
      postprocessors := [{ key := "FFmpegVideoConvertor", preferedformat := some "mp4" }] }

/-- The fallback options dict (`ydl_opts_fallback`, lines 316-321): a fresh
copy of the base dict, so no `postprocessors` entry at all, with a degraded
format selector and, for audio section requests, the trim postprocessor
arguments re-added. -/
def fallbackOpts (req : Request) (tmpl : String) : YdlOpts :=
  { outtmpl := tmpl
    format := if !req.is_audio then "b[height<=480]/b" else "bestaudio/best"
    postprocessor_args :=
      if req.is_audio && tryFragmentCut req then
        some ["-ss", ((startEnd req).1).getD "", "-to", ((startEnd req).2).getD ""]
      else none }

/-- Lines 313-314: `error_msg = str(e).lower()` and
`"sabr" in error_msg or "format" in error_msg`. -/
def triggersFallback (e : String) : Bool :=
  strContains (lowerStr e) "sabr" || strContains (lowerStr e) "format"

/-! ## The output directory as seen by the trim pass

The code only ever asks `p.exists()` and `p.stat().st_size`, so the
directory is an association list from file name to size. -/

/-- Directory listing: file name with its size in bytes. -/
abbrev FSL := List (String × Nat)

/-- `p.exists()`. -/
def fsHas : FSL → String → Bool
  | [], _ => false
  | p :: fs, n => p.1 == n || fsHas fs n

/-- `p.stat().st_size` (as an `Option`, `none` when the file is absent). -/
def fsSize : FSL → String → Option Nat
  | [], _ => none
  | p :: fs, n => if p.1 == n then some p.2 else fsSize fs n

/-- `p.unlink()`. -/
def fsRemove : FSL → String → FSL
  | [], _ => []
  | p :: fs, n => if p.1 == n then fsRemove fs n else p :: fsRemove fs n

/-- Create/overwrite a file of the given size. -/
def fsSet (fs : FSL) (n : String) (sz : Nat) : FSL :=
  (n, sz) :: fsRemove fs n

/-! ## ffmpeg invocations and the post-hoc trim pass (lines 254-310) -/

/-- The outcome of one ffmpeg subprocess call: the return code, and the
state of the target file after the call (`none` = no output file was
produced; `some sz` = the file exists with `sz` bytes). -/
structure CutResult where
  rc : Int
  out : Option Nat
deriving DecidableEq, Repr

/-- Effect of an ffmpeg call on the temp file. -/
def applyCut (fs : FSL) (tmp : String) (r : CutResult) : FSL :=
  match r.out with
  | some sz => fsSet fs tmp sz
  | none => fsRemove fs tmp

/-- The stream-copy argv (line 270-278), after the ffmpeg binary path. -/
def copyCutArgs (s e input outp : String) : List String :=
  ["-y", "-ss", s, "-to", e, "-i", input, "-c", "copy", outp]

/-- The re-encode argv (lines 282-293), after the ffmpeg binary path. -/
def reencodeCutArgs (s e input outp : String) : List String :=
  ["-y", "-ss", s, "-to", e, "-i", input,
   "-c:v", "libx264", "-preset", "fast", "-crf", "18", "-c:a", "aac", outp]

/-- One observable action of the driver, in program order. -/
inductive Act where
  | ydl (opts : YdlOpts)
  | copyCut (args : List String)
  | reencodeCut (args : List String)
  | removeFinal (name : String)
  | renameTmpFinal (tmp final : String)
  | unlinkSrc (name : String)
deriving DecidableEq, Repr

/-- Recognizes a re-encode ffmpeg call in a trace. -/
def isReencodeAct : Act → Bool
  | .reencodeCut _ => true
  | _ => false

/-- Recognizes a yt-dlp download invocation in a trace. -/
def ydlOptsOf : Act → Option YdlOpts
  | .ydl o => some o
  | _ => none

/-- The yt-dlp invocations of a trace, in order. -/
def ydlAttempts (acts : List Act) : List YdlOpts :=
  acts.filterMap ydlOptsOf

/-- `trimmed_tmp = out_dir / f"{base_name}.clip.tmp.mp4"` (line 269). -/
def tmpName (bn : String) : String := bn ++ ".clip.tmp.mp4"

/-- `final_file = out_dir / f"{base_name}.mp4"` (line 296). -/
def finalName (bn : String) : String := bn ++ ".mp4"

/-- Line 280: `rc != 0 or not trimmed_tmp.exists() or trimmed_tmp.stat().st_size < 1024`
evaluated on the directory state after the stream-copy call. -/
def trimCopyFailed (fs1 : FSL) (tmp : String) (c : CutResult) : Bool :=
  !(c.rc == 0) || !(fsHas fs1 tmp) || (fsSize fs1 tmp).getD 0 < 1024

/-- Line 295: `trimmed_tmp.exists() and trimmed_tmp.stat().st_size > 1024`
evaluated on the directory state after the last ffmpeg call. -/
def trimAccept (fs2 : FSL) (tmp : String) : Bool :=
  fsHas fs2 tmp && 1024 < (fsSize fs2 tmp).getD 0

/-- Directory state after the stream-copy call (line 279). -/
def trimFs1 (fs0 : FSL) (bn : String) (c : CutResult) : FSL :=
  applyCut fs0 (tmpName bn) c

/-- Directory state after the ffmpeg call(s): the re-encode retry runs
exactly when line 280's failure test held. -/
def trimFs2 (fs0 : FSL) (bn : String) (c r : CutResult) : FSL :=
  let fs1 := trimFs1 fs0 bn c
  if trimCopyFailed fs1 (tmpName bn) c then applyCut fs1 (tmpName bn) r else fs1

/-- The ffmpeg calls performed by the trim pass, in order. -/
def trimCutTrace (fs0 : FSL) (bn src s e : String) (c : CutResult) : List Act :=
  if trimCopyFailed (trimFs1 fs0 bn c) (tmpName bn) c then
    [Act.copyCut (copyCutArgs s e src (tmpName bn)),
     Act.reencodeCut (reencodeCutArgs s e src (tmpName bn))]
  else [Act.copyCut (copyCutArgs s e src (tmpName bn))]

/-- Result of the trim pass: final directory state and action trace. -/
structure TrimOut where
  fs : FSL
  trace : List Act
deriving DecidableEq, Repr

/-- The post-hoc video trim pass (lines 268-308) for the already-selected
source file `src`.  `c` describes the stream-copy call, `r` the re-encode
call (consulted only when the copy cut failed). -/
def trimPass (fs0 : FSL) (bn src s e : String) (c r : CutResult) : TrimOut :=
  let tmp := tmpName bn
  let final := finalName bn
  let fs2 := trimFs2 fs0 bn c r
  let cutTrace := trimCutTrace fs0 bn src s e c
  if trimAccept fs2 tmp then
    let remTrace := if fsHas fs2 final then [Act.removeFinal final] else []
    let fs3 := if fsHas fs2 final then fsRemove fs2 final else fs2
    let sz := (fsSize fs2 tmp).getD 0
    let fs4 := fsSet (fsRemove fs3 tmp) final sz
    if fsHas fs4 src && !(src == final) then
      { fs := fsRemove fs4 src
        trace := cutTrace ++ remTrace ++ [Act.renameTmpFinal tmp final, Act.unlinkSrc src] }
    else
      { fs := fs4
        trace := cutTrace ++ remTrace ++ [Act.renameTmpFinal tmp final] }
  else { fs := fs2, trace := cutTrace }

/-- The fallback-path trim (lines 328-341): stream-copy only, accepted on
`rc == 0 and trimmed_tmp.exists()` with no size threshold. -/
def fallbackTrim (fs0 : FSL) (bn src s e : String) (c : CutResult) : TrimOut :=
  let tmp := tmpName bn
  let final := finalName bn
  let fs1 := applyCut fs0 tmp c
  if c.rc == 0 && fsHas fs1 tmp then
    let remTrace := if fsHas fs1 final then [Act.removeFinal final] else []
    let fs2 := if fsHas fs1 final then fsRemove fs1 final else fs1
    let sz := (fsSize fs1 tmp).getD 0
    let fs3 := fsSet (fsRemove fs2 tmp) final sz
    if fsHas fs3 src && !(src == final) then
      { fs := fsRemove fs3 src
        trace := [Act.copyCut (copyCutArgs s e src tmp)] ++ remTrace
                   ++ [Act.renameTmpFinal tmp final, Act.unlinkSrc src] }
    else
      { fs := fs3
        trace := [Act.copyCut (copyCutArgs s e src tmp)] ++ remTrace
                   ++ [Act.renameTmpFinal tmp final] }
  else { fs := fs1, trace := [Act.copyCut (copyCutArgs s e src tmp)] }

/-! ## The per-item driver (lines 199-351)

External effects are abstracted by an oracle: whether each yt-dlp download
raises (and with what message), the directory contents the trim pass sees,
which file the glob/mtime candidate scan picks (`none` = no candidates; on
the fallback path `none` makes `max()` raise, which the bare
`except Exception: pass` swallows), and the outcomes of the ffmpeg calls. -/

/-- Outcome of a yt-dlp `download` call: normal return, or a raised
exception carrying a message. -/
inductive Outcome where
  | ok
  | err (msg : String)
deriving DecidableEq, Repr

/-- `ydl.download([...])` as a fallible call. -/
def downloadE (o : Outcome) : Except String Unit :=
  match o with
  | .ok => .ok ()
  | .err m => .error m

/-- Oracle for all external effects of one item. -/
structure ItemOracle where
  primary : Outcome
  fallback : Outcome
  fs : FSL
  src? : Option String
  fs2 : FSL
  src2? : Option String
  copy1 : CutResult
  reenc1 : CutResult
  copy2 : CutResult
deriving Repr

/-- The body of the `for entry in entries` loop for one item, returning
`.error` iff an exception would escape the item (which the theorems show
never happens).  The result is the `success` flag together with the
ordered trace of performed actions. -/
def processItemE (req : Request) (tmpl bn : String) (oc : ItemOracle) :
    Except String (Bool × List Act) :=
  let popts := primaryOpts req tmpl
  let s := ((startEnd req).1).getD ""
  let e := ((startEnd req).2).getD ""
  match downloadE oc.primary with
  | .ok _ =>
    -- line 254: `if success and try_fragment_cut and not is_audio`
    if tryFragmentCut req && !req.is_audio then
      match oc.src? with
      | some src =>
        let t := trimPass oc.fs bn src s e oc.copy1 oc.reenc1
        .ok (true, Act.ydl popts :: t.trace)
      | none =>
        -- line 260: `if downloaded_candidates:` guard, trim silently skipped
        .ok (true, [Act.ydl popts])
    else .ok (true, [Act.ydl popts])
  | .error msg =>
    -- lines 312-348: `except Exception as e`
    if triggersFallback msg then
      let fopts := fallbackOpts req tmpl
      match downloadE oc.fallback with
      | .ok _ =>
        if tryFragmentCut req && !req.is_audio then
          match oc.src2? with
          | some src2 =>
            let t := fallbackTrim oc.fs2 bn src2 s e oc.copy2
            .ok (true, Act.ydl popts :: Act.ydl fopts :: t.trace)
          | none =>
            -- `max()` on an empty glob raises; caught by `except Exception: pass`
            .ok (true, [Act.ydl popts, Act.ydl fopts])
        else .ok (true, [Act.ydl popts, Act.ydl fopts])
      | .error _ =>
        -- line 345: fallback also failed; item marked failed
        .ok (false, [Act.ydl popts, Act.ydl fopts])
    else
      -- line 347: unrecognized error; item marked failed
      .ok (false, [Act.ydl popts])

/-- One playlist entry as the batch loop sees it: the sanitized title plus
the oracle for its external effects. -/
structure EntryItem where
  title : String
  oracle : ItemOracle

/-- The batch loop (lines 199-351): `None` entries are skipped
(`if not entry: continue`); each remaining entry is processed in order.
An `.error` anywhere would abort the remaining items. -/
def runBatch (req : Request) (out_dir : String) :
    List (Option EntryItem) → Except String (List (Bool × List Act))
  | [] => .ok []
  | none :: rest => runBatch req out_dir rest
  | some it :: rest => do
    let bn := base_name it.title req
    let r ← processItemE req (outtmpl_of out_dir bn) bn it.oracle
    let rs ← runBatch req out_dir rest
    pure (r :: rs)

/-- Total projection of `processItemE` (well-defined because the driver
catches every per-item exception, as proved below). -/
def itemReport (req : Request) (tmpl bn : String) (oc : ItemOracle) : Bool × List Act :=
  match processItemE req tmpl bn oc with
  | .ok p => p
  | .error _ => (false, [])

/-! ## Helper lemmas about the directory model -/

theorem beq_false_of_ne {a b : String} (h : a ≠ b) : (a == b) = false := by
  simp [h]

theorem fsHas_fsRemove_self (fs : FSL) (n : String) :
    fsHas (fsRemove fs n) n = false := by
  induction fs with
  | nil => rfl
  | cons hd tl ih =>
    by_cases hb : hd.1 = n
    · simpa [fsRemove, hb] using ih
    · simp [fsRemove, hb, fsHas, ih]

theorem fsHas_fsRemove_ne (fs : FSL) (n m : String) (h : m ≠ n) :
    fsHas (fsRemove fs n) m = fsHas fs m := by
  have h' : n ≠ m := Ne.symm h
  induction fs with
  | nil => rfl
  | cons hd tl ih =>
    by_cases hb : hd.1 = n
    · simp [fsRemove, hb, fsHas, h', ih]
    · simp [fsRemove, hb, fsHas, ih]

theorem fsSize_fsRemove_ne (fs : FSL) (n m : String) (h : m ≠ n) :
    fsSize (fsRemove fs n) m = fsSize fs m := by
  have h' : n ≠ m := Ne.symm h
  induction fs with
  | nil => rfl
  | cons hd tl ih =>
    by_cases hb : hd.1 = n
    · simp [fsRemove, hb, fsSize, h', ih]
    · by_cases hm : hd.1 = m
      · simp [fsRemove, hb, fsSize, hm, h]
      · simp [fsRemove, hb, fsSize, hm, ih]

theorem fsHas_fsSet_self (fs : FSL) (n : String) (sz : Nat) :
    fsHas (fsSet fs n sz) n = true := by
  simp [fsSet, fsHas]

theorem fsHas_fsSet_ne (fs : FSL) (n m : String) (sz : Nat) (h : m ≠ n) :
    fsHas (fsSet fs n sz) m = fsHas fs m := by
  have h' : n ≠ m := Ne.symm h
  simp [fsSet, fsHas, h', fsHas_fsRemove_ne fs n m h]

theorem fsSize_fsSet_self (fs : FSL) (n : String) (sz : Nat) :
    fsSize (fsSet fs n sz) n = some sz := by
  simp [fsSet, fsSize]

theorem fsSize_fsSet_ne (fs : FSL) (n m : String) (sz : Nat) (h : m ≠ n) :
    fsSize (fsSet fs n sz) m = fsSize fs m := by
  have h' : n ≠ m := Ne.symm h
  simp [fsSet, fsSize, h', fsSize_fsRemove_ne fs n m h]

theorem tmpName_ne_finalName (bn : String) : tmpName bn ≠ finalName bn := by
  intro h
  have hlen : (tmpName bn).length = (finalName bn).length := congrArg String.length h
  simp [tmpName, finalName, String.length_append] at hlen
  exact (by decide : ¬ (".clip.tmp.mp4" : String).length = (".mp4" : String).length) hlen

theorem finalName_ne_tmpName (bn : String) : finalName bn ≠ tmpName bn :=
  fun h => tmpName_ne_finalName bn h.symm


/-! ## Lemmas about the trim pass -/

theorem countP_trimCutTrace (fs0 : FSL) (bn src s e : String) (c : CutResult) :
    (trimCutTrace fs0 bn src s e c).countP isReencodeAct
      = if trimCopyFailed (trimFs1 fs0 bn c) (tmpName bn) c then 1 else 0 := by
  unfold trimCutTrace
  split <;> simp [List.countP_cons, isReencodeAct]

theorem trimPass_countP (fs0 : FSL) (bn src s e : String) (c r : CutResult) :
    (trimPass fs0 bn src s e c r).trace.countP isReencodeAct
      = if trimCopyFailed (trimFs1 fs0 bn c) (tmpName bn) c then 1 else 0 := by
  have hcut := countP_trimCutTrace fs0 bn src s e c
  simp only [trimPass]
  split_ifs with h1 h2 h3 <;>
    simp [List.countP_append, List.countP_cons, isReencodeAct, hcut] <;> simp_all

theorem trimPass_reject (fs0 : FSL) (bn src s e : String) (c r : CutResult)
    (hacc : trimAccept (trimFs2 fs0 bn c r) (tmpName bn) = false) :
    (trimPass fs0 bn src s e c r).trace = trimCutTrace fs0 bn src s e c
    ∧ (trimPass fs0 bn src s e c r).fs = trimFs2 fs0 bn c r := by
  simp only [trimPass, hacc]
  exact ⟨rfl, rfl⟩

theorem trimPass_accept (fs0 : FSL) (bn src s e : String) (c r : CutResult)
    (hacc : trimAccept (trimFs2 fs0 bn c r) (tmpName bn) = true) :
    (∃ pre suf, (trimPass fs0 bn src s e c r).trace
        = pre ++ (if fsHas (trimFs2 fs0 bn c r) (finalName bn)
                    then [Act.removeFinal (finalName bn)] else [])
              ++ [Act.renameTmpFinal (tmpName bn) (finalName bn)] ++ suf)
    ∧ fsSize (trimPass fs0 bn src s e c r).fs (finalName bn)
        = some ((fsSize (trimFs2 fs0 bn c r) (tmpName bn)).getD 0)
    ∧ fsHas (trimPass fs0 bn src s e c r).fs (tmpName bn) = false
    ∧ (src ≠ finalName bn → fsHas (trimPass fs0 bn src s e c r).fs src = false) := by
  have htf := tmpName_ne_finalName bn
  simp only [trimPass, hacc, if_true]
  split_ifs with h2 h3 h3
  · -- final existed, src unlinked
    have hsf : src ≠ finalName bn := by
      rcases Bool.and_eq_true _ _ |>.mp h3 with ⟨_, hb⟩
      simpa using hb
    refine ⟨⟨trimCutTrace fs0 bn src s e c, [Act.unlinkSrc src], by simp⟩, ?_, ?_, ?_⟩
    · rw [fsSize_fsRemove_ne _ _ _ (Ne.symm hsf), fsSize_fsSet_self]
    · by_cases hts : tmpName bn = src
      · rw [hts, fsHas_fsRemove_self]
      · rw [fsHas_fsRemove_ne _ _ _ hts, fsHas_fsSet_ne _ _ _ _ htf, fsHas_fsRemove_self]
    · intro _
      exact fsHas_fsRemove_self _ _
  · -- final existed, no unlink
    refine ⟨⟨trimCutTrace fs0 bn src s e c, [], by simp⟩, ?_, ?_, ?_⟩
    · exact fsSize_fsSet_self _ _ _
    · rw [fsHas_fsSet_ne _ _ _ _ htf, fsHas_fsRemove_self]
    · intro hsf
      have hb : (!(src == finalName bn)) = true := by simpa using hsf
      have := h3
      rw [hb, Bool.and_true] at this
      simpa using this
  · -- final absent, src unlinked
    have hsf : src ≠ finalName bn := by
      rcases Bool.and_eq_true _ _ |>.mp h3 with ⟨_, hb⟩
      simpa using hb
    refine ⟨⟨trimCutTrace fs0 bn src s e c, [Act.unlinkSrc src], by simp⟩, ?_, ?_, ?_⟩
    · rw [fsSize_fsRemove_ne _ _ _ (Ne.symm hsf), fsSize_fsSet_self]
    · by_cases hts : tmpName bn = src
      · rw [hts, fsHas_fsRemove_self]
      · rw [fsHas_fsRemove_ne _ _ _ hts, fsHas_fsSet_ne _ _ _ _ htf, fsHas_fsRemove_self]
    · intro _
      exact fsHas_fsRemove_self _ _
  · -- final absent, no unlink
    refine ⟨⟨trimCutTrace fs0 bn src s e c, [], by simp⟩, ?_, ?_, ?_⟩
    · exact fsSize_fsSet_self _ _ _
    · rw [fsHas_fsSet_ne _ _ _ _ htf, fsHas_fsRemove_self]
    · intro hsf
      have hb : (!(src == finalName bn)) = true := by simpa using hsf
      have := h3
      rw [hb, Bool.and_true] at this
      simpa using this

theorem trimPass_unlink_ordering (fs0 : FSL) (bn src s e : String) (c r : CutResult)
    (nm : String) (hmem : Act.unlinkSrc nm ∈ (trimPass fs0 bn src s e c r).trace) :
    trimAccept (trimFs2 fs0 bn c r) (tmpName bn) = true
    ∧ ∃ pre, (trimPass fs0 bn src s e c r).trace
        = pre ++ [Act.renameTmpFinal (tmpName bn) (finalName bn), Act.unlinkSrc nm] := by
  have hcut : ∀ q : String, Act.unlinkSrc q ∉ trimCutTrace fs0 bn src s e c := by
    intro q
    unfold trimCutTrace
    split <;> simp
  simp only [trimPass] at hmem ⊢
  split_ifs at hmem ⊢ with h1 h2 h3 h3
  · -- final existed, unlink branch
    have hnm : nm = src := by
      rcases List.mem_append.mp hmem with hmem1 | hmem1
      · rcases List.mem_append.mp hmem1 with hmem2 | hmem2
        · exact absurd hmem2 (hcut nm)
        · simp at hmem2
      · simpa using hmem1
    subst hnm
    exact ⟨h1, trimCutTrace fs0 bn nm s e c ++ [Act.removeFinal (finalName bn)], by simp⟩
  · -- final existed, no unlink: contradiction
    exfalso
    rcases List.mem_append.mp hmem with hmem1 | hmem1
    · rcases List.mem_append.mp hmem1 with hmem2 | hmem2
      · exact absurd hmem2 (hcut nm)
      · simp at hmem2
    · simp at hmem1
  · -- final absent, unlink branch
    have hnm : nm = src := by
      rcases List.mem_append.mp hmem with hmem1 | hmem1
      · rcases List.mem_append.mp hmem1 with hmem2 | hmem2
        · exact absurd hmem2 (hcut nm)
        · simp at hmem2
      · simpa using hmem1
    subst hnm
    exact ⟨h1, trimCutTrace fs0 bn nm s e c ++ [], by simp⟩
  · exfalso
    rcases List.mem_append.mp hmem with hmem1 | hmem1
    · rcases List.mem_append.mp hmem1 with hmem2 | hmem2
      · exact absurd hmem2 (hcut nm)
      · simp at hmem2
    · simp at hmem1
  · exact absurd hmem (hcut nm)


/-! ## Lemmas about the per-item driver -/

theorem ydlAttempts_trimPass (fs0 : FSL) (bn src s e : String) (c r : CutResult) :
    ydlAttempts (trimPass fs0 bn src s e c r).trace = [] := by
  have hcut : ydlAttempts (trimCutTrace fs0 bn src s e c) = [] := by
    unfold trimCutTrace
    split <;> rfl
  simp only [trimPass]
  split_ifs <;>
    simp [ydlAttempts, List.filterMap_append, ydlOptsOf] <;>
    simpa [ydlAttempts] using hcut

theorem ydlAttempts_fallbackTrim (fs0 : FSL) (bn src s e : String) (c : CutResult) :
    ydlAttempts (fallbackTrim fs0 bn src s e c).trace = [] := by
  simp only [fallbackTrim]
  split_ifs <;> simp [ydlAttempts, List.filterMap_append, ydlOptsOf]

theorem ydlOptsOf_trimPass_mem (fs0 : FSL) (bn src s e : String) (c r : CutResult) :
    ∀ a ∈ (trimPass fs0 bn src s e c r).trace, ydlOptsOf a = none := fun a ha =>
  List.filterMap_eq_nil_iff.mp (ydlAttempts_trimPass fs0 bn src s e c r) a ha

theorem ydlOptsOf_fallbackTrim_mem (fs0 : FSL) (bn src s e : String) (c : CutResult) :
    ∀ a ∈ (fallbackTrim fs0 bn src s e c).trace, ydlOptsOf a = none := fun a ha =>
  List.filterMap_eq_nil_iff.mp (ydlAttempts_fallbackTrim fs0 bn src s e c) a ha

theorem processItemE_isOk (req : Request) (tmpl bn : String) (oc : ItemOracle) :
    ∃ p, processItemE req tmpl bn oc = Except.ok p := by
  obtain ⟨pr, fb, fs, srcO, fs2o, src2O, c1, r1, c2⟩ := oc
  cases pr <;> cases fb <;> cases srcO <;> cases src2O <;>
    simp only [processItemE, downloadE] <;> split_ifs <;> exact ⟨_, rfl⟩

/-- The yt-dlp invocations an item performs, characterized by the primary
outcome and the signature test. -/
theorem ydlAttempts_processItemE (req : Request) (tmpl bn : String) (oc : ItemOracle)
    (res : Bool) (acts : List Act)
    (h : processItemE req tmpl bn oc = Except.ok (res, acts)) :
    ydlAttempts acts
      = match oc.primary with
        | .ok => [primaryOpts req tmpl]
        | .err m =>
          if triggersFallback m then [primaryOpts req tmpl, fallbackOpts req tmpl]
          else [primaryOpts req tmpl] := by
  obtain ⟨pr, fb, fs, srcO, fs2o, src2O, c1, r1, c2⟩ := oc
  cases pr <;> cases fb <;> cases srcO <;> cases src2O <;>
    revert h <;> simp only [processItemE, downloadE] <;> split_ifs <;>
    intro h <;>
    simp only [Except.ok.injEq, Prod.mk.injEq] at h <;>
    rcases h with ⟨h1, h2⟩ <;> subst h2 <;>
    simp [ydlAttempts, ydlOptsOf, List.filterMap_append, ydlAttempts_trimPass,
          ydlAttempts_fallbackTrim] <;>
    (try exact fun a ha => ydlOptsOf_trimPass_mem _ _ _ _ _ _ _ a ha) <;>
    (try exact fun a ha => ydlOptsOf_fallbackTrim_mem _ _ _ _ _ _ a ha)


/-! ## Lemmas about the option dictionaries -/

theorem primaryOpts_no_section (req : Request) (tmpl : String) :
    (primaryOpts req tmpl).download_ranges = none
    ∧ (primaryOpts req tmpl).force_keyframes_at_cuts = false := by
  unfold primaryOpts
  split_ifs <;> exact ⟨rfl, rfl⟩

theorem fallbackOpts_no_section (req : Request) (tmpl : String) :
    (fallbackOpts req tmpl).download_ranges = none
    ∧ (fallbackOpts req tmpl).force_keyframes_at_cuts = false :=
  ⟨rfl, rfl⟩

theorem fallbackOpts_format (req : Request) (tmpl : String) :
    (fallbackOpts req tmpl).format
      = if req.is_audio then "bestaudio/best" else "b[height<=480]/b" := by
  cases hia : req.is_audio <;> simp [fallbackOpts, hia]

theorem ppargs_preserved (req : Request) (tmpl : String) :
    (fallbackOpts req tmpl).postprocessor_args = (primaryOpts req tmpl).postprocessor_args := by
  cases hia : req.is_audio <;> simp [fallbackOpts, primaryOpts, hia]



/-! ## Concrete sample inputs used by witnesses and counterexamples -/

/-- A 720p video request with the section 00:10 - 00:20. -/
def reqV : Request := ⟨false, "mp3", "720p", some ("00:10", "00:20")⟩

/-- An mp3 audio request with the section 00:10 - 00:20. -/
def reqA : Request := ⟨true, "mp3", "720p", some ("00:10", "00:20")⟩

/-- Oracle: primary download succeeds leaving `b.mkv` (4000 bytes); the
stream-copy cut exits 0 producing a 2000-byte temp file. -/
def ocV : ItemOracle :=
  { primary := .ok, fallback := .ok
    fs := [("b.mkv", 4000)], src? := some "b.mkv"
    fs2 := [], src2? := none
    copy1 := ⟨0, some 2000⟩, reenc1 := ⟨0, some 2000⟩, copy2 := ⟨0, none⟩ }

/-- Oracle: primary download raises a SABR-restriction error; the fallback
download succeeds. -/
def ocS : ItemOracle :=
  { primary := .err "ERROR: This video is affected by SABR streaming"
    fallback := .ok
    fs := [], src? := none, fs2 := [], src2? := none
    copy1 := ⟨0, none⟩, reenc1 := ⟨0, none⟩, copy2 := ⟨0, none⟩ }


/-! ## Claim theorems -/

/-- C1: the claim says every single-item session plans the first free name
in the sequence `base.ext`, `base (1).ext`, ... scanned before the
download.  The helper `unique_template` implements exactly that scan (and
on the claim's inputs returns `base (2)` resp. `base`), but `main` never
calls it: the planned template of line 205 is built from `base_name` alone,
so with `video_720p.mp4` and `video_720p (1).mp4` already present the plan
still targets the colliding `video_720p.%(ext)s`. -/
theorem single_item_plan_overwrites :
    base_name "video" ⟨false, "mp3", "720p", none⟩ = "video_720p"
    ∧ outtmpl_of "videos" (base_name "video" ⟨false, "mp3", "720p", none⟩)
        = "videos/video_720p.%(ext)s"
    ∧ ("video_720p" ++ "." ++ "mp4") ∈ ["video_720p.mp4", "video_720p (1).mp4"]
    ∧ unique_template "videos" ["video_720p.mp4", "video_720p (1).mp4"] "video_720p" "mp4"
        = "videos/video_720p (2).%(ext)s"
    ∧ unique_template "videos" [] "video_720p" "mp4" = "videos/video_720p.%(ext)s"
    ∧ outtmpl_of "videos" (base_name "video" ⟨false, "mp3", "720p", none⟩)
        ≠ unique_template "videos" ["video_720p.mp4", "video_720p (1).mp4"] "video_720p" "mp4" := by
  refine ⟨rfl, rfl, by decide, by decide, by decide, by decide⟩

/-- C2 (counterexample): for a concrete video section request the driver's
first action is a plain yt-dlp download whose options carry no native
section-download directive (`download_ranges`/`force_keyframes_at_cuts`
never set), followed by an external ffmpeg cut — so native section
extraction is not attempted first. -/
theorem native_section_not_first :
    reqV.is_audio = false
    ∧ tryFragmentCut reqV = true
    ∧ processItemE reqV "videos/b.%(ext)s" "b" ocV
        = Except.ok (true,
            [Act.ydl (primaryOpts reqV "videos/b.%(ext)s"),
             Act.copyCut (copyCutArgs "00:00:10" "00:00:20" "b.mkv" (tmpName "b")),
             Act.renameTmpFinal (tmpName "b") (finalName "b"),
             Act.unlinkSrc "b.mkv"])
    ∧ (primaryOpts reqV "videos/b.%(ext)s").download_ranges = none
    ∧ (primaryOpts reqV "videos/b.%(ext)s").force_keyframes_at_cuts = false :=
  ⟨rfl, rfl, rfl, rfl, rfl⟩

/-- C2 (amended): no yt-dlp invocation of any item ever carries a native
section-download directive; for every video section request whose primary
download succeeds and whose candidate scan finds a file, the driver
performs the full download and then the external trim pass. -/
theorem video_section_full_download_then_trim (req : Request) (tmpl bn : String)
    (oc : ItemOracle) (res : Bool) (acts : List Act)
    (h : processItemE req tmpl bn oc = Except.ok (res, acts)) :
    (∀ o ∈ ydlAttempts acts, o.download_ranges = none ∧ o.force_keyframes_at_cuts = false)
    ∧ (req.is_audio = false → tryFragmentCut req = true → oc.primary = Outcome.ok →
        ∀ src, oc.src? = some src →
          acts = Act.ydl (primaryOpts req tmpl)
            :: (trimPass oc.fs bn src (((startEnd req).1).getD "") (((startEnd req).2).getD "")
                  oc.copy1 oc.reenc1).trace) := by
  constructor
  · have hy := ydlAttempts_processItemE req tmpl bn oc res acts h
    intro o ho
    rw [hy] at ho
    have hp := primaryOpts_no_section req tmpl
    have hf := fallbackOpts_no_section req tmpl
    rcases hpr : oc.primary with _ | m <;> rw [hpr] at ho
    · simp only [List.mem_singleton] at ho
      subst ho
      exact hp
    · by_cases ht : triggersFallback m = true
      · simp [ht] at ho
        rcases ho with ho | ho <;> subst ho
        exacts [hp, hf]
      · simp [ht] at ho
        subst ho
        exact hp
  · intro hia hcut hpr src hsrc
    obtain ⟨pr, fb, fs, srcO, fs2o, src2O, c1, r1, c2⟩ := oc
    simp only at hpr hsrc
    subst hpr
    subst hsrc
    revert h
    simp only [processItemE, downloadE, hcut, hia, Bool.not_false, Bool.and_self, if_true]
    intro h
    simp only [Except.ok.injEq, Prod.mk.injEq] at h
    exact h.2.symm

/-- C2 (witness): the amended theorem applied to the concrete video section
request `reqV` with oracle `ocV`. -/
theorem video_section_full_download_then_trim_app :
    (itemReport reqV "videos/b.%(ext)s" "b" ocV).2
      = Act.ydl (primaryOpts reqV "videos/b.%(ext)s")
          :: (trimPass ocV.fs "b" "b.mkv" "00:00:10" "00:00:20" ocV.copy1 ocV.reenc1).trace := by
  have h := video_section_full_download_then_trim reqV "videos/b.%(ext)s" "b" ocV
    (itemReport reqV "videos/b.%(ext)s" "b" ocV).1
    (itemReport reqV "videos/b.%(ext)s" "b" ocV).2 rfl
  exact h.2 rfl rfl rfl "b.mkv" rfl

/-- C3: a fallback attempt happens iff the primary download raised an error
whose lowercased text contains "sabr" or "format"; at most one fallback is
made, with the degraded selector (<=480p merged stream for video, plain
best-audio for audio), and the trim postprocessor arguments are carried
over unchanged. -/
theorem fallback_iff_known_signature (req : Request) (tmpl bn : String) (oc : ItemOracle)
    (res : Bool) (acts : List Act)
    (h : processItemE req tmpl bn oc = Except.ok (res, acts)) :
    (ydlAttempts acts).length ≤ 2
    ∧ ((ydlAttempts acts).length = 2 ↔
        ∃ m, oc.primary = Outcome.err m ∧ triggersFallback m = true)
    ∧ ((ydlAttempts acts).length = 2 →
        ydlAttempts acts = [primaryOpts req tmpl, fallbackOpts req tmpl])
    ∧ (fallbackOpts req tmpl).format
        = (if req.is_audio then "bestaudio/best" else "b[height<=480]/b")
    ∧ (fallbackOpts req tmpl).postprocessor_args = (primaryOpts req tmpl).postprocessor_args := by
  have hy := ydlAttempts_processItemE req tmpl bn oc res acts h
  refine ⟨?_, ?_, ?_, fallbackOpts_format req tmpl, ppargs_preserved req tmpl⟩ <;>
    rcases hp : oc.primary with _ | m <;> rw [hp] at hy
  · simp [hy]
  · by_cases ht : triggersFallback m = true <;> simp [ht] at hy <;> simp [hy]
  · simp [hy]
  · by_cases ht : triggersFallback m = true <;> simp [ht] at hy <;> simp [hy, ht]
  · simp [hy]
  · by_cases ht : triggersFallback m = true <;> simp [ht] at hy <;> simp [hy]

/-- C3 (witness): a primary error containing the SABR signature produces
exactly the two attempts, primary then degraded fallback. -/
theorem fallback_iff_known_signature_app :
    (ydlAttempts (itemReport reqA "t" "b" ocS).2).length = 2
    ∧ ydlAttempts (itemReport reqA "t" "b" ocS).2
        = [primaryOpts reqA "t", fallbackOpts reqA "t"] := by
  have h := fallback_iff_known_signature reqA "t" "b" ocS
    (itemReport reqA "t" "b" ocS).1 (itemReport reqA "t" "b" ocS).2 rfl
  exact ⟨by decide, h.2.2.1 (by decide)⟩



/-- C4: in the post-hoc video trim pass, a re-encode cut runs exactly once
iff the stream-copy cut failed (non-zero exit, no output, or under the
1024-byte threshold); when the resulting temp file is valid the final name
is removed if present, the temp cut is renamed into place (so the final
file now has the cut's size and the temp file is gone), and the untrimmed
source is deleted only after the rename, never otherwise. -/
theorem trim_retry_and_replace (fs0 : FSL) (bn src s e : String) (c r : CutResult) :
    ((trimPass fs0 bn src s e c r).trace.countP isReencodeAct
        = if trimCopyFailed (trimFs1 fs0 bn c) (tmpName bn) c then 1 else 0)
    ∧ (trimAccept (trimFs2 fs0 bn c r) (tmpName bn) = true →
        (∃ pre suf, (trimPass fs0 bn src s e c r).trace
            = pre ++ (if fsHas (trimFs2 fs0 bn c r) (finalName bn)
                        then [Act.removeFinal (finalName bn)] else [])
                  ++ [Act.renameTmpFinal (tmpName bn) (finalName bn)] ++ suf)
        ∧ fsSize (trimPass fs0 bn src s e c r).fs (finalName bn)
            = some ((fsSize (trimFs2 fs0 bn c r) (tmpName bn)).getD 0)
        ∧ fsHas (trimPass fs0 bn src s e c r).fs (tmpName bn) = false
        ∧ (src ≠ finalName bn → fsHas (trimPass fs0 bn src s e c r).fs src = false))
    ∧ (∀ nm, Act.unlinkSrc nm ∈ (trimPass fs0 bn src s e c r).trace →
        trimAccept (trimFs2 fs0 bn c r) (tmpName bn) = true
        ∧ ∃ pre, (trimPass fs0 bn src s e c r).trace
            = pre ++ [Act.renameTmpFinal (tmpName bn) (finalName bn), Act.unlinkSrc nm])
    ∧ (trimAccept (trimFs2 fs0 bn c r) (tmpName bn) = false →
        (trimPass fs0 bn src s e c r).trace = trimCutTrace fs0 bn src s e c
        ∧ (trimPass fs0 bn src s e c r).fs = trimFs2 fs0 bn c r) :=
  ⟨trimPass_countP fs0 bn src s e c r,
   fun hacc => trimPass_accept fs0 bn src s e c r hacc,
   fun nm hmem => trimPass_unlink_ordering fs0 bn src s e c r nm hmem,
   fun hacc => trimPass_reject fs0 bn src s e c r hacc⟩

/-- C4 (witness): the copy cut exits 1 with no output, the re-encode cut
produces 5000 bytes; exactly one re-encode runs, `b.mp4` ends at 5000
bytes and the untrimmed `b.mkv` is gone. -/
theorem trim_retry_and_replace_app :
    ((trimPass [("b.mkv", 9000)] "b" "b.mkv" "00:00:10" "00:00:20"
        ⟨1, none⟩ ⟨0, some 5000⟩).trace.countP isReencodeAct = 1)
    ∧ fsSize (trimPass [("b.mkv", 9000)] "b" "b.mkv" "00:00:10" "00:00:20"
        ⟨1, none⟩ ⟨0, some 5000⟩).fs (finalName "b") = some 5000
    ∧ fsHas (trimPass [("b.mkv", 9000)] "b" "b.mkv" "00:00:10" "00:00:20"
        ⟨1, none⟩ ⟨0, some 5000⟩).fs "b.mkv" = false := by
  have h := trim_retry_and_replace [("b.mkv", 9000)] "b" "b.mkv" "00:00:10" "00:00:20"
    ⟨1, none⟩ ⟨0, some 5000⟩
  refine ⟨h.1.trans (by decide), ?_, ?_⟩
  · exact ((h.2.1 (by decide)).2.1).trans (by decide)
  · exact (h.2.1 (by decide)).2.2.2 (by decide)

/-- Oracle: primary download raises an error matching no known signature. -/
def ocN : ItemOracle :=
  { primary := .err "HTTP Error 403: Forbidden"
    fallback := .ok
    fs := [], src? := none, fs2 := [], src2? := none
    copy1 := ⟨0, none⟩, reenc1 := ⟨0, none⟩, copy2 := ⟨0, none⟩ }

/-- C5: no per-item failure escapes the batch loop: for every entry list
and every oracle assignment, `runBatch` returns normally with exactly one
report per non-null entry, each report being that item's own outcome; an
item whose primary error matches no signature, or whose fallback also
fails, is merely marked failed. -/
theorem batch_completes_all_items (req : Request) (d : String)
    (items : List (Option EntryItem)) :
    (∃ rs, runBatch req d items = Except.ok rs
      ∧ rs.length = (items.filterMap id).length
      ∧ rs = items.filterMap (fun o => o.map (fun it =>
          itemReport req (outtmpl_of d (base_name it.title req))
            (base_name it.title req) it.oracle)))
    ∧ (∀ tmpl bn : String, ∀ oc : ItemOracle, ∀ msg, oc.primary = Outcome.err msg →
        (triggersFallback msg = false → (itemReport req tmpl bn oc).1 = false)
        ∧ (∀ msg2, triggersFallback msg = true → oc.fallback = Outcome.err msg2 →
            (itemReport req tmpl bn oc).1 = false)) := by
  constructor
  case right =>
    intro tmpl bn oc msg hpr
    obtain ⟨pr, fb, fs, srcO, fs2o, src2O, c1, r1, c2⟩ := oc
    simp only at hpr
    subst hpr
    constructor
    · intro ht
      simp [itemReport, processItemE, downloadE, ht]
    · intro msg2 ht hfb
      simp only at hfb
      subst hfb
      simp [itemReport, processItemE, downloadE, ht]
  case left =>
    induction items with
  | nil => exact ⟨[], rfl, rfl, rfl⟩
  | cons head rest ih =>
    obtain ⟨rs, hrun, hlen, hval⟩ := ih
    cases head with
    | none =>
      refine ⟨rs, ?_, ?_, ?_⟩
      · simpa [runBatch] using hrun
      · simpa using hlen
      · simpa using hval
    | some it =>
      obtain ⟨p, hp⟩ := processItemE_isOk req (outtmpl_of d (base_name it.title req))
        (base_name it.title req) it.oracle
      refine ⟨p :: rs, ?_, ?_, ?_⟩
      · simp only [runBatch, hp, hrun]
        rfl
      · simp [List.filterMap_cons, hlen]
      · simp [List.filterMap_cons, hval, itemReport, hp]

/-- C6: with a section requested, the quality tag carries the trim tag
`<start digits zero-padded to 6>-<end digits zero-padded to 6>` (colons
stripped from the normalized timestamps) and the base name is the
sanitized title, an underscore, the quality tag, an underscore, and that
trim tag. -/
theorem trim_tag_and_base_name (ia : Bool) (af rs title s e : String) :
    quality_tag_base ⟨ia, af, rs, some (s, e)⟩
      = (if ia then af else rs) ++ "_"
          ++ zfill (stripColons (normalizeTs s)) 6 ++ "-"
          ++ zfill (stripColons (normalizeTs e)) 6
    ∧ base_name title ⟨ia, af, rs, some (s, e)⟩
      = title ++ "_" ++ ((if ia then af else rs) ++ "_"
          ++ zfill (stripColons (normalizeTs s)) 6 ++ "-"
          ++ zfill (stripColons (normalizeTs e)) 6) :=
  ⟨rfl, rfl⟩

/-- C7: timestamps with two colon-separated fields are normalized by
prefixing `00:`; timestamps with three fields are left unchanged. -/
theorem timestamp_normalization (t : String) :
    ((splitOnChar ':' t.data).length = 2 → normalizeTs t = "00:" ++ t)
    ∧ ((splitOnChar ':' t.data).length = 3 → normalizeTs t = t) := by
  constructor
  · intro h
    simp [normalizeTs, h]
  · intro h
    have h2 : ¬ (splitOnChar ':' t.data).length = 2 := by omega
    simp [normalizeTs, h2]

/-- C7 (witness): `12:34` becomes `00:12:34`; `01:02:03` is unchanged. -/
theorem timestamp_normalization_app :
    normalizeTs "12:34" = "00:12:34" ∧ normalizeTs "01:02:03" = "01:02:03" :=
  ⟨((timestamp_normalization "12:34").1 (by decide)).trans (by decide),
   (timestamp_normalization "01:02:03").2 (by decide)⟩

/-- C5 (witness): an item whose primary error matches no known signature
is reported failed (and, per the main conjunct, the batch still completes). -/
theorem batch_completes_all_items_app :
    (itemReport reqA "t" "b" ocN).1 = false :=
  ((batch_completes_all_items reqA "d" []).2 "t" "b" ocN
    "HTTP Error 403: Forbidden" rfl).1 (by decide)

/-- C8: every index the selection parser keeps is in range (non-numeric
and out-of-range tokens are dropped, never rejected); on `"1,3,5"`
against 4 entries the selection is the 0-based set `[0, 2]`, picking the
first and third members. -/
theorem subset_selection_drops_invalid :
    (∀ raw : String, ∀ n : Nat, ∀ i ∈ selected_indices raw n, 0 ≤ i ∧ i < (n : Int))
    ∧ selected_indices "1,3,5" 4 = [0, 2]
    ∧ selectEntries ["a", "b", "c", "d"] false (selected_indices "1,3,5" 4) = ["a", "c"]
    ∧ selected_indices "1, x, 3, 5, foo" 4 = [0, 2] := by
  refine ⟨?_, by decide, by decide, by decide⟩
  intro raw n i hi
  have hp := List.of_mem_filter hi
  simpa using hp

/-- C8 (witness): the range property applied at the concrete selection. -/
theorem subset_selection_drops_invalid_app :
    (0 : Int) ∈ selected_indices "1,3,5" 4 ∧ (0 ≤ (0 : Int) ∧ (0 : Int) < (4 : Int)) :=
  ⟨by decide, subset_selection_drops_invalid.1 "1,3,5" 4 0 (by decide)⟩

/-- C9: the audio fallback options drop the `FFmpegExtractAudio`
postprocessor that the primary attempt carries (so a fallback audio
download is not converted to the requested codec), while the trim
postprocessor arguments are preserved verbatim. -/
theorem audio_fallback_omits_codec_pp (req : Request) (tmpl : String)
    (h : req.is_audio = true) :
    (primaryOpts req tmpl).postprocessors
      = [{ key := "FFmpegExtractAudio", preferredcodec := some req.audio_fmt,
           preferredquality := some "192" }]
    ∧ (fallbackOpts req tmpl).postprocessors = []
    ∧ (fallbackOpts req tmpl).postprocessor_args = (primaryOpts req tmpl).postprocessor_args := by
  refine ⟨?_, rfl, ppargs_preserved req tmpl⟩
  simp [primaryOpts, h]

/-- C9 (witness): the theorem applied to the concrete audio request. -/
theorem audio_fallback_omits_codec_pp_app :
    (primaryOpts reqA "t").postprocessors
      = [{ key := "FFmpegExtractAudio", preferredcodec := some "mp3",
           preferredquality := some "192" }]
    ∧ (fallbackOpts reqA "t").postprocessors = [] := by
  have h := audio_fallback_omits_codec_pp reqA "t" rfl
  exact ⟨h.1.trans (by decide), h.2.1⟩

/-- C10: a stream-copy cut that exits 0 with an output of exactly 1024
bytes triggers no re-encode retry (the retry test is `< 1024`) and is not
accepted (the acceptance test is `> 1024`): the trace is the single copy
cut, nothing is renamed, and the full untrimmed file stays in place. -/
theorem threshold_equality_keeps_full_file :
    (∀ r : CutResult,
      trimPass [("b.mkv", 9000)] "b" "b.mkv" "00:00:10" "00:00:20" ⟨0, some 1024⟩ r
        = { fs := [(tmpName "b", 1024), ("b.mkv", 9000)],
            trace := [Act.copyCut (copyCutArgs "00:00:10" "00:00:20" "b.mkv" (tmpName "b"))] })
    ∧ trimCopyFailed (trimFs1 [("b.mkv", 9000)] "b" ⟨0, some 1024⟩) (tmpName "b")
        ⟨0, some 1024⟩ = false
    ∧ (∀ r : CutResult,
        trimAccept (trimFs2 [("b.mkv", 9000)] "b" ⟨0, some 1024⟩ r) (tmpName "b") = false) :=
  ⟨fun _ => rfl, rfl, fun _ => rfl⟩


end YtDl
